import Mathlib

/-!
Verification of the concurrent batch-checking core of OVHDomainTools.

The embedding below follows `src/dq.py` (class `DomainCmd`) and the
near-identical script variant `src/check_domains.py`.  Pure pieces of the
Python code become Lean functions; the thread-pool execution becomes an
explicit fold over the per-task state transitions (each task's shared-state
update is a single critical section under `data_lock`, so a batch execution
is some serialization of those atomic sections; the theorems quantify over
arbitrary task lists, hence over every serialization order).  Prices are
modelled as rationals, timestamps as integers (seconds).
-/

/-- Sorting modes, from the `Sorting` enum of `dq.py` (lines 20-24). -/
inductive Sorting
  | price
  | renew
  | order
  | alphabetic
deriving DecidableEq

/-- A successful quote, from class `DomainInfo` of `dq.py` (lines 26-30):
`name`, `order` (order price) and `renew` (renewal price). -/
structure DomainInfo where
  name : String
  order : ℚ
  renew : ℚ
deriving DecidableEq

/-- One entry of an offer's `prices` list in the remote JSON:
a `label` string and the numeric `price.value`. -/
structure PriceEntry where
  label : String
  value : ℚ
deriving DecidableEq

/-- One offer of the remote quote response: the fields of the JSON object
read by `_check_domain_status` (`orderable`, `action`, `prices`). -/
structure Offer where
  orderable : Bool
  action : String
  prices : List PriceEntry
deriving DecidableEq

/-- The price-extraction loop of `_check_domain_status` (`dq.py` lines
494-499) and `check_tld_status` (`check_domains.py` lines 51-56): walk the
offer's price list left to right carrying the pair
`(orderprice, renewprice)`, overwriting the first component at each entry
labeled `TOTAL` and the second at each entry labeled `RENEW`. -/
def scanPrices : List PriceEntry → Option ℚ × Option ℚ → Option ℚ × Option ℚ
  | [], acc => acc
  | p :: ps, acc =>
      scanPrices ps
        (if p.label = "TOTAL" then (some p.value, acc.2)
         else if p.label = "RENEW" then (acc.1, some p.value)
         else acc)

/-- `DomainCmd._check_domain_status` (`dq.py` lines 474-505), the part after
the session refresh and the network call: given the decoded JSON offer list,
take the first offer (an empty list means not orderable), require
`orderable` and `action == 'create'`, extract the `TOTAL` and `RENEW`
prices, and fail if either is missing. `none` models Python `None`. -/
def check_domain_status (domain : String) (offers : List Offer) :
    Option DomainInfo :=
  match offers with
  | [] => none
  | offer :: _ =>
      if !offer.orderable || offer.action != "create" then none
      else
        match scanPrices offer.prices (none, none) with
        | (some orderprice, some renewprice) =>
            some ⟨domain, orderprice, renewprice⟩
        | _ => none

/-- `check_tld_status` (`check_domains.py` lines 34-62): identical to
`check_domain_status` except that it does not require `action == 'create'`. -/
def check_tld_status (domain : String) (offers : List Offer) :
    Option DomainInfo :=
  match offers with
  | [] => none
  | offer :: _ =>
      if !offer.orderable then none
      else
        match scanPrices offer.prices (none, none) with
        | (some orderprice, some renewprice) =>
            some ⟨domain, orderprice, renewprice⟩
        | _ => none

/-- The comparison key of `_sort_domain_list` (`dq.py` lines 529-543), as a
boolean "key of `a` does not exceed key of `b`" relation.  Alphabetic
comparison is Python's lexicographic string order, modelled on the
character list of the name. -/
def sortLe (sorting : Sorting) (a b : DomainInfo) : Bool :=
  match sorting with
  | .alphabetic => a.name.data ≤ b.name.data
  | .price => max a.renew a.order ≤ max b.renew b.order
  | .renew => a.renew ≤ b.renew
  | .order => a.order ≤ b.order

/-- Insert an element into an already sorted list, before the first element
it compares less-or-equal to (so an element inserted later lands after
equal keys already present: stability). -/
def orderedInsert (le : DomainInfo → DomainInfo → Bool) (a : DomainInfo) :
    List DomainInfo → List DomainInfo
  | [] => [a]
  | b :: l => if le a b then a :: b :: l else b :: orderedInsert le a l

/-- A stable sort by the boolean relation `le`, modelling Python's
`list.sort` (a stable sort). -/
def stableSort (le : DomainInfo → DomainInfo → Bool) :
    List DomainInfo → List DomainInfo
  | [] => []
  | a :: l => orderedInsert le a (stableSort le l)

/-- `DomainCmd._sort_domain_list` (`dq.py` lines 529-543): stable-sort by
the key selected by `sorting`, then reverse the whole sorted sequence when
`ascending` is false (`self.sort_ascending`). -/
def sort_domain_list (sorting : Sorting) (ascending : Bool)
    (domains : List DomainInfo) : List DomainInfo :=
  let sorted := stableSort (sortLe sorting) domains
  if ascending then sorted else sorted.reverse

/-- Outcome of the HTTP POST performed by `_fetch_cart_id` (`dq.py` lines
515-527): the request can fail `raise_for_status` (non-success status), or
succeed with a JSON body that lacks the `cartId` field, or succeed with a
`cartId`. -/
inductive CartResponse
  | httpError
  | missingCartId
  | ok (cartId : String)
deriving DecidableEq

/-- The session cache of `DomainCmd` (`dq.py` lines 78-79): `self.cart_id`
and `self.cart_time`, both initially `None`. -/
structure CartState where
  cart_id : Option String
  cart_time : Option ℤ
deriving DecidableEq

/-- How one call to `_fetch_cart_id` ends: returning `True`, returning
`False`, or propagating an exception. -/
inductive FetchOutcome
  | success
  | failure
  | exn
deriving DecidableEq

/-- `DomainCmd._fetch_cart_id` (`dq.py` lines 515-527).  On a non-success
HTTP status, `raise_for_status` throws, the handler logs and returns
`False` with the state untouched.  On a body without `cartId`, the
subscript raises `KeyError` before either assignment runs (uncaught here),
so the state is also untouched.  On success, `cart_id` and `cart_time` are
both replaced and the call returns `True`. -/
def fetch_cart_id (now : ℤ) (resp : CartResponse) (s : CartState) :
    CartState × FetchOutcome :=
  match resp with
  | .httpError => (s, .failure)
  | .missingCartId => (s, .exn)
  | .ok cid => (⟨some cid, some now⟩, .success)

/-- `DomainCmd.CART_TIMEOUT` (`dq.py` line 56): five minutes, in seconds. -/
def CART_TIMEOUT : ℤ := 300

/-- The staleness test of `_refresh_cart_id` (`dq.py` lines 508 and 510):
the cached cart is stale when `cart_time` is `None` or
`utcnow() - cart_time >= CART_TIMEOUT`. -/
def cartStale (now : ℤ) (s : CartState) : Bool :=
  match s.cart_time with
  | none => true
  | some t => CART_TIMEOUT ≤ now - t

/-- `DomainCmd._refresh_cart_id` (`dq.py` lines 507-513) for one caller.
`outerStale` is the result of the unlocked outer staleness check, taken
as an arbitrary boolean because it may have read a state that another
thread has since replaced; the inner re-check (performed under
`cart_lock`, hence against the current state `s` at time `now`) is real.
The third component records whether the network fetch was performed. -/
def refresh_cart_id (outerStale : Bool) (now : ℤ) (resp : CartResponse)
    (s : CartState) : CartState × FetchOutcome × Bool :=
  if outerStale then
    if cartStale now s then
      let r := fetch_cart_id now resp s
      (r.1, r.2, true)
    else (s, .success, false)
  else (s, .success, false)

/-- A sequence of `_refresh_cart_id` callers, serialized by `cart_lock` in
some order: each triple is (outer staleness observation, time of the inner
section, network response if a fetch happens).  Returns the final state and
the total number of network fetches performed. -/
def runRefreshBatch : List (Bool × ℤ × CartResponse) → CartState →
    CartState × ℕ
  | [], s => (s, 0)
  | c :: cs, s =>
      let r := refresh_cart_id c.1 c.2.1 c.2.2 s
      let r' := runRefreshBatch cs r.1
      (r'.1, (if r.2.2 then 1 else 0) + r'.2)

/-- Result of one domain lookup as seen by a worker task: a quote, a
business-level `None` (not orderable / incomplete pricing / failed session
refresh), or an exception caught at the task boundary. -/
inductive LookupOutcome
  | quote (info : DomainInfo)
  | notOrderable
  | exn
deriving DecidableEq

/-- One submitted worker task: the domain it checks, the value of
`self.check_aborted` it observes at its entry check, and how its lookup
would end if it runs. -/
structure BatchTask where
  domain : String
  abortedSeen : Bool
  outcome : LookupOutcome
deriving DecidableEq

/-- Observable output actions of a batch: the `domain\trenew\torder` header
line, one result line per quote (`_print_domain_entry`), the progress line
written to stderr by `_print_process`, and a diagnostic traceback. -/
inductive Event
  | header
  | entry (info : DomainInfo)
  | progress (done failed : ℕ) (domain : String)
  | diag
deriving DecidableEq

/-- The per-batch shared aggregation state (`dq.py` lines 85-86):
`self.domain_info` and `self.failed_domains`, guarded by `data_lock`. -/
structure BatchState where
  domain_info : List DomainInfo
  failed_domains : ℕ
deriving DecidableEq

/-- `DomainCmd._check_and_update_sorted` (`dq.py` lines 454-472), the task
body of buffered (non-alphabetic) mode: return immediately if
`check_aborted` was observed set; otherwise print a progress line, run the
lookup (an exception prints a traceback and degrades to `None`), and under
`data_lock` either append the quote to `domain_info` or increment
`failed_domains`. -/
def check_and_update_sorted (t : BatchTask) (s : BatchState) :
    BatchState × List Event :=
  if t.abortedSeen then (s, [])
  else
    let pre := [Event.progress s.domain_info.length s.failed_domains t.domain]
    match t.outcome with
    | .quote info => (⟨s.domain_info ++ [info], s.failed_domains⟩, pre)
    | .notOrderable => (⟨s.domain_info, s.failed_domains + 1⟩, pre)
    | .exn => (⟨s.domain_info, s.failed_domains + 1⟩, pre ++ [Event.diag])

/-- `DomainCmd._check_and_update` (`dq.py` lines 439-452), the task body of
streaming (alphabetic) mode: return immediately if `check_aborted` was
observed set; otherwise run the lookup (an exception prints a traceback and
degrades to `None`) and, under `print_lock`, print the result line when the
lookup succeeded.  It never touches `domain_info` or `failed_domains`. -/
def check_and_update (t : BatchTask) (s : BatchState) : BatchState × List Event :=
  if t.abortedSeen then (s, [])
  else
    match t.outcome with
    | .quote info => (s, [Event.entry info])
    | .notOrderable => (s, [])
    | .exn => (s, [Event.diag])

/-- Run a batch of tasks through a step function, threading the shared
state and concatenating the emitted events.  The list order is the order in
which the tasks' critical sections are serialized. -/
def runTasks (step : BatchTask → BatchState → BatchState × List Event) :
    List BatchTask → BatchState → BatchState × List Event
  | [], s => (s, [])
  | t :: ts, s =>
      let r := step t s
      let r' := runTasks step ts r.1
      (r'.1, r.2 ++ r'.2)

/-- The buffered-mode batch: every task runs `_check_and_update_sorted`. -/
def runTasksSorted : List BatchTask → BatchState → BatchState × List Event :=
  runTasks check_and_update_sorted

/-- The streaming-mode batch: every task runs `_check_and_update`. -/
def runTasksStreaming : List BatchTask → BatchState → BatchState × List Event :=
  runTasks check_and_update

/-- `DomainCmd._check_list` (`dq.py` lines 364-381).  In alphabetic
(streaming) mode: print the header, then run the tasks, which print result
lines as they complete.  Otherwise (buffered mode): reset the aggregation
state to empty, run the tasks, and only after the pool has drained — and
only when `check_aborted` is not set (`abortedAtEnd`) — sort the collected
quotes and print the header followed by one line per quote. -/
def check_list (sorting : Sorting) (ascending : Bool) (tasks : List BatchTask)
    (abortedAtEnd : Bool) (s : BatchState) : BatchState × List Event :=
  if sorting = Sorting.alphabetic then
    let r := runTasksStreaming tasks s
    (r.1, Event.header :: r.2)
  else
    let r := runTasksSorted tasks ⟨[], 0⟩
    if abortedAtEnd then r
    else
      (r.1, r.2 ++ Event.header ::
        (sort_domain_list sorting ascending r.1.domain_info).map Event.entry)

/-- `DomainCmd._check_domain_status` including its first step (`dq.py`
lines 474-476): the lookup first calls `_refresh_cart_id`; when the session
refresh reports failure the whole lookup returns `None`, exactly as a
not-orderable domain does. -/
def check_domain_status_full (refreshOk : Bool) (domain : String)
    (offers : List Offer) : Option DomainInfo :=
  if !refreshOk then none else check_domain_status domain offers

/-- The lookup outcome a task records for a given refresh result and offer
list: a quote when `_check_domain_status` returns one, otherwise `None`. -/
def lookupOutcome (refreshOk : Bool) (domain : String)
    (offers : List Offer) : LookupOutcome :=
  match check_domain_status_full refreshOk domain offers with
  | some info => .quote info
  | none => .notOrderable

/-! ## Helper lemmas about price extraction -/

lemma scanPrices_fst_isSome (ps : List PriceEntry) (acc : Option ℚ × Option ℚ) :
    (scanPrices ps acc).1.isSome = true ↔
      (acc.1.isSome = true ∨ ∃ p ∈ ps, p.label = "TOTAL") := by
  induction ps generalizing acc with
  | nil => simp [scanPrices]
  | cons p ps ih =>
      by_cases hT : p.label = "TOTAL"
      · simp [scanPrices, hT, ih]
      · by_cases hR : p.label = "RENEW"
        · simp [scanPrices, hT, hR, ih]
        · simp [scanPrices, hT, hR, ih]

lemma scanPrices_snd_isSome (ps : List PriceEntry) (acc : Option ℚ × Option ℚ) :
    (scanPrices ps acc).2.isSome = true ↔
      (acc.2.isSome = true ∨ ∃ p ∈ ps, p.label = "RENEW") := by
  induction ps generalizing acc with
  | nil => simp [scanPrices]
  | cons p ps ih =>
      by_cases hT : p.label = "TOTAL"
      · simp [scanPrices, hT, ih]
      · by_cases hR : p.label = "RENEW"
        · simp [scanPrices, hT, hR, ih]
        · simp [scanPrices, hT, hR, ih]

lemma scanPrices_fst_none (ps : List PriceEntry)
    (h : ¬ ∃ p ∈ ps, p.label = "TOTAL") :
    (scanPrices ps (none, none)).1 = none := by
  rcases hopt : (scanPrices ps (none, none)).1 with _ | v
  · rfl
  · exfalso
    apply h
    have := (scanPrices_fst_isSome ps (none, none)).mp (by rw [hopt]; rfl)
    simpa using this

lemma scanPrices_snd_none (ps : List PriceEntry)
    (h : ¬ ∃ p ∈ ps, p.label = "RENEW") :
    (scanPrices ps (none, none)).2 = none := by
  rcases hopt : (scanPrices ps (none, none)).2 with _ | v
  · rfl
  · exfalso
    apply h
    have := (scanPrices_snd_isSome ps (none, none)).mp (by rw [hopt]; rfl)
    simpa using this

/-- Claim C2: a quote is produced only when the first offer exists, is
orderable (and, in the stricter variant of `dq.py`, has action `create`),
and its price list carries both a `TOTAL`-labeled entry (the order price)
and a `RENEW`-labeled entry (the renew price); when either label is absent
the lookup returns `None` — never a quote with a missing price.  Stated for
both variants, `_check_domain_status` of `dq.py` and `check_tld_status` of
`check_domains.py`. -/
theorem quote_requires_complete_pricing (domain : String) (offers : List Offer) :
    (∀ info, check_domain_status domain offers = some info →
       ∃ o rest, offers = o :: rest ∧ o.orderable = true ∧ o.action = "create" ∧
         (∃ p ∈ o.prices, p.label = "TOTAL") ∧ (∃ p ∈ o.prices, p.label = "RENEW") ∧
         scanPrices o.prices (none, none) = (some info.order, some info.renew) ∧
         info.name = domain)
    ∧ (∀ o rest, offers = o :: rest →
         ((¬ ∃ p ∈ o.prices, p.label = "TOTAL") ∨ (¬ ∃ p ∈ o.prices, p.label = "RENEW")) →
         check_domain_status domain offers = none)
    ∧ (∀ info, check_tld_status domain offers = some info →
       ∃ o rest, offers = o :: rest ∧ o.orderable = true ∧
         (∃ p ∈ o.prices, p.label = "TOTAL") ∧ (∃ p ∈ o.prices, p.label = "RENEW") ∧
         scanPrices o.prices (none, none) = (some info.order, some info.renew) ∧
         info.name = domain)
    ∧ (∀ o rest, offers = o :: rest →
         ((¬ ∃ p ∈ o.prices, p.label = "TOTAL") ∨ (¬ ∃ p ∈ o.prices, p.label = "RENEW")) →
         check_tld_status domain offers = none) := by
  refine ⟨?_, ?_, ?_, ?_⟩
  · intro info h
    cases offers with
    | nil => simp [check_domain_status] at h
    | cons o rest =>
        refine ⟨o, rest, rfl, ?_⟩
        simp only [check_domain_status] at h
        by_cases hb : (!o.orderable || o.action != "create") = true
        · simp [hb] at h
        · rw [if_neg hb] at h
          simp only [Bool.or_eq_true, Bool.not_eq_true', bne_iff_ne, ne_eq, not_or,
            not_not, Bool.not_eq_false] at hb
          rcases hsc : scanPrices o.prices (none, none) with ⟨op, rp⟩
          rw [hsc] at h
          cases op with
          | none => simp at h
          | some op =>
              cases rp with
              | none => simp at h
              | some rp =>
                  simp only [Option.some.injEq] at h
                  subst h
                  refine ⟨hb.1, hb.2, ?_, ?_, rfl, rfl⟩
                  · have := (scanPrices_fst_isSome o.prices (none, none)).mp
                      (by rw [hsc]; rfl)
                    simpa using this
                  · have := (scanPrices_snd_isSome o.prices (none, none)).mp
                      (by rw [hsc]; rfl)
                    simpa using this
  · intro o rest heq habs
    subst heq
    simp only [check_domain_status]
    generalize hsc : scanPrices o.prices (none, none) = pr
    obtain ⟨op, rp⟩ := pr
    rcases habs with habs | habs
    · have hfst := scanPrices_fst_none o.prices habs
      rw [hsc] at hfst
      simp only at hfst
      subst hfst
      cases rp <;> simp
    · have hsnd := scanPrices_snd_none o.prices habs
      rw [hsc] at hsnd
      simp only at hsnd
      subst hsnd
      cases op <;> simp
  · intro info h
    cases offers with
    | nil => simp [check_tld_status] at h
    | cons o rest =>
        refine ⟨o, rest, rfl, ?_⟩
        simp only [check_tld_status] at h
        by_cases hb : (!o.orderable) = true
        · simp [hb] at h
        · rw [if_neg hb] at h
          simp only [Bool.not_eq_true', Bool.not_eq_false] at hb
          rcases hsc : scanPrices o.prices (none, none) with ⟨op, rp⟩
          rw [hsc] at h
          cases op with
          | none => simp at h
          | some op =>
              cases rp with
              | none => simp at h
              | some rp =>
                  simp only [Option.some.injEq] at h
                  subst h
                  refine ⟨hb, ?_, ?_, rfl, rfl⟩
                  · have := (scanPrices_fst_isSome o.prices (none, none)).mp
                      (by rw [hsc]; rfl)
                    simpa using this
                  · have := (scanPrices_snd_isSome o.prices (none, none)).mp
                      (by rw [hsc]; rfl)
                    simpa using this
  · intro o rest heq habs
    subst heq
    simp only [check_tld_status]
    generalize hsc : scanPrices o.prices (none, none) = pr
    obtain ⟨op, rp⟩ := pr
    rcases habs with habs | habs
    · have hfst := scanPrices_fst_none o.prices habs
      rw [hsc] at hfst
      simp only at hfst
      subst hfst
      cases rp <;> simp
    · have hsnd := scanPrices_snd_none o.prices habs
      rw [hsc] at hsnd
      simp only at hsnd
      subst hsnd
      cases op <;> simp

/-- Witness for C2: an orderable create offer with a `TOTAL` price but no
`RENEW` price yields no quote. -/
theorem quote_requires_complete_pricing_witness :
    check_domain_status "a.com" [⟨true, "create", [⟨"TOTAL", 5⟩]⟩] = none :=
  (quote_requires_complete_pricing "a.com"
      [⟨true, "create", [⟨"TOTAL", 5⟩]⟩]).2.1
    ⟨true, "create", [⟨"TOTAL", 5⟩]⟩ [] rfl (Or.inr (by decide))

lemma orderedInsert_perm (le : DomainInfo → DomainInfo → Bool) (a : DomainInfo)
    (l : List DomainInfo) : List.Perm (orderedInsert le a l) (a :: l) := by
  induction l with
  | nil => rfl
  | cons b l ih =>
      by_cases h : le a b
      · simp [orderedInsert, h]
      · simp only [orderedInsert, h, if_false, Bool.false_eq_true]
        exact List.Perm.trans (List.Perm.cons b ih) (List.Perm.swap a b l)

lemma stableSort_perm (le : DomainInfo → DomainInfo → Bool)
    (l : List DomainInfo) : List.Perm (stableSort le l) l := by
  induction l with
  | nil => rfl
  | cons a l ih =>
      exact List.Perm.trans (orderedInsert_perm le a (stableSort le l))
        (List.Perm.cons a ih)

lemma mem_orderedInsert (le : DomainInfo → DomainInfo → Bool) (a x : DomainInfo)
    (l : List DomainInfo) :
    x ∈ orderedInsert le a l ↔ x = a ∨ x ∈ l := by
  have := (orderedInsert_perm le a l).mem_iff (a := x)
  simpa using this

lemma orderedInsert_pairwise (le : DomainInfo → DomainInfo → Bool)
    (htot : ∀ a b, le a b = true ∨ le b a = true)
    (htrans : ∀ a b c, le a b = true → le b c = true → le a c = true)
    (a : DomainInfo) (l : List DomainInfo)
    (h : List.Pairwise (fun x y => le x y = true) l) :
    List.Pairwise (fun x y => le x y = true) (orderedInsert le a l) := by
  induction l with
  | nil => simp [orderedInsert]
  | cons b l ih =>
      by_cases hab : le a b
      · simp only [orderedInsert, hab, if_true]
        refine List.Pairwise.cons ?_ h
        intro x hx
        rcases List.mem_cons.mp hx with rfl | hx
        · exact hab
        · exact htrans a b x hab (List.rel_of_pairwise_cons h hx)
      · simp only [orderedInsert, hab, if_false, Bool.false_eq_true]
        refine List.Pairwise.cons ?_ (ih (List.Pairwise.of_cons h))
        intro x hx
        rcases (mem_orderedInsert le a x l).mp hx with rfl | hx
        · rcases htot x b with hxb | hbx
          · exact absurd hxb hab
          · exact hbx
        · exact List.rel_of_pairwise_cons h hx

lemma stableSort_pairwise (le : DomainInfo → DomainInfo → Bool)
    (htot : ∀ a b, le a b = true ∨ le b a = true)
    (htrans : ∀ a b c, le a b = true → le b c = true → le a c = true)
    (l : List DomainInfo) :
    List.Pairwise (fun x y => le x y = true) (stableSort le l) := by
  induction l with
  | nil => simp [stableSort]
  | cons a l ih => exact orderedInsert_pairwise le htot htrans a (stableSort le l) ih

/-- Claim C7: sorting with key Price, ascending, orders quotes by
`max(orderPrice, renewPrice)` ascending (the result is a permutation of
the input whose adjacent elements are in that key order), and on the
quotes a(order=10,renew=5), b(order=3,renew=8), c(order=1,renew=1) the
output sequence is c, b, a. -/
theorem price_sort_ascending (l : List DomainInfo) :
    List.Pairwise
      (fun a b => max a.renew a.order ≤ max b.renew b.order)
      (sort_domain_list Sorting.price true l)
    ∧ List.Perm (sort_domain_list Sorting.price true l) l
    ∧ sort_domain_list Sorting.price true
        [⟨"a", 10, 5⟩, ⟨"b", 3, 8⟩, ⟨"c", 1, 1⟩]
        = [⟨"c", 1, 1⟩, ⟨"b", 3, 8⟩, ⟨"a", 10, 5⟩] := by
  refine ⟨?_, ?_, by decide⟩
  · have hp := stableSort_pairwise (sortLe Sorting.price)
      (fun a b => by
        simp only [sortLe, decide_eq_true_eq]
        exact le_total _ _)
      (fun a b c h1 h2 => by
        simp only [sortLe, decide_eq_true_eq] at h1 h2 ⊢
        exact le_trans h1 h2)
      l
    have h2 := hp.imp (fun {a b} h => by
      simpa only [sortLe, decide_eq_true_eq] using h)
    simpa [sort_domain_list] using h2
  · simpa [sort_domain_list] using stableSort_perm (sortLe Sorting.price) l

/-- Claim C8: for every sort key, sorting descending yields exactly the
reverse of the ascending result (whole-sequence reversal after the stable
sort), so the order of key-equal elements is flipped too — shown on two
quotes with equal Price keys. -/
theorem descending_is_reverse_of_ascending :
    (∀ (sorting : Sorting) (l : List DomainInfo),
      sort_domain_list sorting false l = (sort_domain_list sorting true l).reverse)
    ∧ sort_domain_list Sorting.price true [⟨"x", 1, 1⟩, ⟨"y", 1, 1⟩]
        = [⟨"x", 1, 1⟩, ⟨"y", 1, 1⟩]
    ∧ sort_domain_list Sorting.price false [⟨"x", 1, 1⟩, ⟨"y", 1, 1⟩]
        = [⟨"y", 1, 1⟩, ⟨"x", 1, 1⟩] :=
  ⟨fun _ _ => rfl, by decide, by decide⟩

/-! ## Session manager -/

lemma runRefreshBatch_fresh (t0 : ℤ) (s : CartState) (hs : s.cart_time = some t0)
    (callers : List (Bool × ℤ × CartResponse))
    (hin : ∀ c ∈ callers, t0 ≤ c.2.1 ∧ c.2.1 - t0 < CART_TIMEOUT) :
    runRefreshBatch callers s = (s, 0) := by
  induction callers with
  | nil => rfl
  | cons c cs ih =>
      have hc := hin c (List.mem_cons_self c cs)
      have hstale : cartStale c.2.1 s = false := by
        simp only [cartStale, hs, decide_eq_false_iff_not]
        omega
      have hstep : refresh_cart_id c.1 c.2.1 c.2.2 s = (s, .success, false) := by
        cases hq : c.1 <;> simp [refresh_cart_id, hstale]
      simp only [runRefreshBatch, hstep]
      simp [ih (fun c2 h2 => hin c2 (List.mem_cons_of_mem c h2))]

/-- Claim C5: the network fetch happens only when the cached session is
absent or at least `CART_TIMEOUT` old at the in-section re-check (last
conjunct), and after a successful refresh at time `t0`, any number of
further callers whose locked sections run inside the TTL window — whatever
their racy unlocked outer observation was, in particular callers that
queued while the refresh was underway — perform zero additional network
fetches and leave the session unchanged. -/
theorem token_refresh_at_most_once_per_ttl (t0 : ℤ) (s : CartState)
    (hs : s.cart_time = some t0)
    (callers : List (Bool × ℤ × CartResponse))
    (hin : ∀ c ∈ callers, t0 ≤ c.2.1 ∧ c.2.1 - t0 < CART_TIMEOUT) :
    (runRefreshBatch callers s).2 = 0
    ∧ (runRefreshBatch callers s).1 = s
    ∧ ∀ (os : Bool) (now : ℤ) (resp : CartResponse) (s2 : CartState),
        (refresh_cart_id os now resp s2).2.2 = true → cartStale now s2 = true := by
  have hmain := runRefreshBatch_fresh t0 s hs callers hin
  refine ⟨by simp [hmain], by simp [hmain], ?_⟩
  intro os now resp s2 hfetch
  by_contra hns
  have hfalse : cartStale now s2 = false := by
    simpa using hns
  cases os <;> simp [refresh_cart_id, hfalse] at hfetch

/-- Witness for C5: three callers (two observing a stale outer check, one
fresh, with mixed would-be responses) inside the TTL window after a refresh
at time 0 perform no fetch. -/
theorem token_refresh_at_most_once_per_ttl_witness :
    (runRefreshBatch
      [(true, 10, .ok "x"), (true, 299, .httpError), (false, 50, .missingCartId)]
      ⟨some "cart", some 0⟩).2 = 0 :=
  (token_refresh_at_most_once_per_ttl 0 ⟨some "cart", some 0⟩ rfl
    [(true, 10, .ok "x"), (true, 299, .httpError), (false, 50, .missingCartId)]
    (by decide)).1

/-- Claim C9: a failed session refresh — non-success HTTP status, or a
response lacking the `cartId` field — leaves both `cart_id` and
`cart_time` unchanged and does not report success. -/
theorem failed_refresh_preserves_session (now : ℤ) (resp : CartResponse)
    (s : CartState)
    (h : resp = CartResponse.httpError ∨ resp = CartResponse.missingCartId) :
    (fetch_cart_id now resp s).1 = s
    ∧ (fetch_cart_id now resp s).2 ≠ FetchOutcome.success := by
  rcases h with rfl | rfl <;> simp [fetch_cart_id]

/-- Witness for C9: an HTTP failure at time 7 leaves a cached session from
time 3 untouched. -/
theorem failed_refresh_preserves_session_witness :
    (fetch_cart_id 7 CartResponse.httpError ⟨some "cart", some 3⟩).1
      = ⟨some "cart", some 3⟩ :=
  (failed_refresh_preserves_session 7 CartResponse.httpError
    ⟨some "cart", some 3⟩ (Or.inl rfl)).1

/-! ## Batch runner -/

lemma check_and_update_sorted_conserv (t : BatchTask) (s : BatchState) :
    (check_and_update_sorted t s).1.failed_domains
      + (check_and_update_sorted t s).1.domain_info.length
      = s.failed_domains + s.domain_info.length
        + (if t.abortedSeen then 0 else 1) := by
  cases h : t.abortedSeen <;> cases ho : t.outcome <;>
    simp [check_and_update_sorted, h, ho] <;> omega

lemma runTasksSorted_conserv (ts : List BatchTask) (s : BatchState) :
    (runTasksSorted ts s).1.failed_domains
      + (runTasksSorted ts s).1.domain_info.length
      = s.failed_domains + s.domain_info.length
        + (ts.filter (fun t => !t.abortedSeen)).length := by
  induction ts generalizing s with
  | nil => simp [runTasksSorted, runTasks]
  | cons t ts ih =>
      simp only [runTasksSorted, runTasks] at ih ⊢
      rw [ih]
      have hstep := check_and_update_sorted_conserv t s
      cases h : t.abortedSeen <;>
        simp [h, List.filter_cons] at hstep ⊢ <;> omega

lemma check_and_update_sorted_aborted (t : BatchTask) (s : BatchState)
    (h : t.abortedSeen = true) : check_and_update_sorted t s = (s, []) := by
  simp [check_and_update_sorted, h]

lemma runTasksSorted_all_aborted (ts : List BatchTask) (s : BatchState)
    (h : ∀ t ∈ ts, t.abortedSeen = true) : runTasksSorted ts s = (s, []) := by
  induction ts with
  | nil => rfl
  | cons t ts ih =>
      simp only [runTasksSorted, runTasks]
      rw [check_and_update_sorted_aborted t s (h t (List.mem_cons_self t ts))]
      have hrest := ih (fun t2 h2 => h t2 (List.mem_cons_of_mem t h2))
      simp only [runTasksSorted] at hrest
      simp [hrest]

lemma runTasks_append (step : BatchTask → BatchState → BatchState × List Event)
    (l1 l2 : List BatchTask) (s : BatchState) :
    runTasks step (l1 ++ l2) s
      = ((runTasks step l2 (runTasks step l1 s).1).1,
         (runTasks step l1 s).2 ++ (runTasks step l2 (runTasks step l1 s).1).2) := by
  induction l1 generalizing s with
  | nil => simp [runTasks]
  | cons t l1 ih => simp [runTasks, ih, List.append_assoc]

lemma check_and_update_sorted_no_entry (t : BatchTask) (s : BatchState) :
    ∀ e ∈ (check_and_update_sorted t s).2, ∀ info, e ≠ Event.entry info := by
  intro e he info
  cases h : t.abortedSeen <;> cases ho : t.outcome <;>
    simp [check_and_update_sorted, h, ho] at he <;>
    rcases he with rfl | rfl <;> simp

lemma runTasksSorted_no_entry (ts : List BatchTask) (s : BatchState) :
    ∀ e ∈ (runTasksSorted ts s).2, ∀ info, e ≠ Event.entry info := by
  induction ts generalizing s with
  | nil => simp [runTasksSorted, runTasks]
  | cons t ts ih =>
      intro e he info
      simp only [runTasksSorted, runTasks, List.mem_append] at he
      rcases he with he | he
      · exact check_and_update_sorted_no_entry t s e he info
      · exact ih (check_and_update_sorted t s).1 e he info

/-- Claim C1: a batch that completes with no task having observed the
aborted flag satisfies `failed_domains + |domain_info| = number of
submitted tasks` (one task per deduplicated candidate), because every
non-aborted task either appends exactly one quote to `domain_info` or
increments `failed_domains` by exactly one, in its `data_lock` section. -/
theorem batch_conservation (tasks : List BatchTask)
    (h : ∀ t ∈ tasks, t.abortedSeen = false) :
    (runTasksSorted tasks ⟨[], 0⟩).1.failed_domains
      + (runTasksSorted tasks ⟨[], 0⟩).1.domain_info.length = tasks.length
    ∧ ∀ (t : BatchTask) (s : BatchState), t.abortedSeen = false →
        ((∃ info, (check_and_update_sorted t s).1.domain_info = s.domain_info ++ [info]
            ∧ (check_and_update_sorted t s).1.failed_domains = s.failed_domains)
         ∨ ((check_and_update_sorted t s).1.domain_info = s.domain_info
            ∧ (check_and_update_sorted t s).1.failed_domains = s.failed_domains + 1)) := by
  constructor
  · have hcons := runTasksSorted_conserv tasks ⟨[], 0⟩
    have hf : tasks.filter (fun t => !t.abortedSeen) = tasks :=
      List.filter_eq_self.mpr (fun t ht => by simp [h t ht])
    rw [hf] at hcons
    simpa using hcons
  · intro t s ht
    cases ho : t.outcome with
    | quote info =>
        exact Or.inl ⟨info, by simp [check_and_update_sorted, ht, ho],
          by simp [check_and_update_sorted, ht, ho]⟩
    | notOrderable =>
        exact Or.inr ⟨by simp [check_and_update_sorted, ht, ho],
          by simp [check_and_update_sorted, ht, ho]⟩
    | exn =>
        exact Or.inr ⟨by simp [check_and_update_sorted, ht, ho],
          by simp [check_and_update_sorted, ht, ho]⟩

/-- Witness for C1: one quoted and one failed task give
`failed_domains + |domain_info| = 2`. -/
theorem batch_conservation_witness :
    (runTasksSorted
      [⟨"a.com", false, LookupOutcome.quote ⟨"a.com", 1, 2⟩⟩,
       ⟨"b.com", false, LookupOutcome.notOrderable⟩] ⟨[], 0⟩).1.failed_domains
      + (runTasksSorted
      [⟨"a.com", false, LookupOutcome.quote ⟨"a.com", 1, 2⟩⟩,
       ⟨"b.com", false, LookupOutcome.notOrderable⟩] ⟨[], 0⟩).1.domain_info.length
      = 2 :=
  (batch_conservation
    [⟨"a.com", false, LookupOutcome.quote ⟨"a.com", 1, 2⟩⟩,
     ⟨"b.com", false, LookupOutcome.notOrderable⟩] (by decide)).1

/-- Claim C6: when the aborted flag is set after the `pre` tasks started
(so the `post` tasks observe it), the batch still ends in a consistent
state: the started tasks are all reflected in `domain_info` or
`failed_domains` (their sum is `|pre|`), the suffix changes nothing, and a
task observing the flag returns at once — state untouched, no output, no
dependence on any would-be network result. -/
theorem cancellation_consistency (pre post : List BatchTask)
    (hpre : ∀ t ∈ pre, t.abortedSeen = false)
    (hpost : ∀ t ∈ post, t.abortedSeen = true) :
    (runTasksSorted (pre ++ post) ⟨[], 0⟩).1.failed_domains
      + (runTasksSorted (pre ++ post) ⟨[], 0⟩).1.domain_info.length = pre.length
    ∧ runTasksSorted (pre ++ post) ⟨[], 0⟩ = runTasksSorted pre ⟨[], 0⟩
    ∧ ∀ (t : BatchTask) (s : BatchState), t.abortedSeen = true →
        check_and_update_sorted t s = (s, []) := by
  have happ := runTasks_append check_and_update_sorted pre post ⟨[], 0⟩
  have habort := runTasksSorted_all_aborted post (runTasksSorted pre ⟨[], 0⟩).1 hpost
  have heq : runTasksSorted (pre ++ post) ⟨[], 0⟩ = runTasksSorted pre ⟨[], 0⟩ := by
    simp only [runTasksSorted] at habort ⊢
    rw [happ, habort]
    simp
  refine ⟨?_, heq, fun t s ht => check_and_update_sorted_aborted t s ht⟩
  rw [heq]
  have hcons := runTasksSorted_conserv pre ⟨[], 0⟩
  have hf : pre.filter (fun t => !t.abortedSeen) = pre :=
    List.filter_eq_self.mpr (fun t ht => by simp [hpre t ht])
  rw [hf] at hcons
  simpa using hcons

/-- Witness for C6: one started task and one cancelled task end with
`failed_domains + |domain_info| = 1`. -/
theorem cancellation_consistency_witness :
    (runTasksSorted
      ([⟨"a.com", false, LookupOutcome.quote ⟨"a.com", 1, 2⟩⟩]
        ++ [⟨"b.com", true, LookupOutcome.notOrderable⟩]) ⟨[], 0⟩).1.failed_domains
      + (runTasksSorted
      ([⟨"a.com", false, LookupOutcome.quote ⟨"a.com", 1, 2⟩⟩]
        ++ [⟨"b.com", true, LookupOutcome.notOrderable⟩]) ⟨[], 0⟩).1.domain_info.length
      = 1 :=
  (cancellation_consistency
    [⟨"a.com", false, LookupOutcome.quote ⟨"a.com", 1, 2⟩⟩]
    [⟨"b.com", true, LookupOutcome.notOrderable⟩] (by decide) (by decide)).1

/-- Claim C4: in buffered mode (any sort key other than the streaming
alphabetic one) the task phase emits no result line — every `entry` event
of the batch trace comes after all task events, once the pool has drained
and the quotes are sorted — while in streaming mode each successful
non-aborted task emits its result line itself, incrementally. -/
theorem buffered_mode_defers_output (sorting : Sorting) (ascending : Bool)
    (tasks : List BatchTask) (abortedAtEnd : Bool) (s : BatchState)
    (h : sorting ≠ Sorting.alphabetic) :
    (∀ e ∈ (runTasksSorted tasks ⟨[], 0⟩).2, ∀ info, e ≠ Event.entry info)
    ∧ (∃ tail, (check_list sorting ascending tasks abortedAtEnd s).2
        = (runTasksSorted tasks ⟨[], 0⟩).2 ++ tail)
    ∧ (check_list Sorting.alphabetic ascending tasks abortedAtEnd s).2
        = Event.header :: (runTasksStreaming tasks s).2
    ∧ ∀ (t : BatchTask) (st : BatchState) (info : DomainInfo),
        t.abortedSeen = false → t.outcome = .quote info →
        check_and_update t st = (st, [Event.entry info]) := by
  refine ⟨runTasksSorted_no_entry tasks _, ?_, by simp [check_list], ?_⟩
  · simp only [check_list, if_neg h]
    cases abortedAtEnd
    · exact ⟨_, rfl⟩
    · exact ⟨[], by simp⟩
  · intro t st info ht ho
    simp [check_and_update, ht, ho]

/-- Witness for C4: a one-task buffered batch under the Price key has a
trace that extends the task-phase events. -/
theorem buffered_mode_defers_output_witness :
    ∃ tail, (check_list Sorting.price true
        [⟨"a.com", false, LookupOutcome.notOrderable⟩] false ⟨[], 0⟩).2
      = (runTasksSorted [⟨"a.com", false, LookupOutcome.notOrderable⟩] ⟨[], 0⟩).2
        ++ tail :=
  (buffered_mode_defers_output Sorting.price true
    [⟨"a.com", false, LookupOutcome.notOrderable⟩] false ⟨[], 0⟩
    (by decide)).2.1

/-- Claim C10: a streaming-mode task never mutates the shared aggregation
state: its state is returned unchanged in every case; a successful lookup
only prints its result line, a not-orderable lookup prints nothing, and a
failed lookup shows up only as a diagnostic traceback — never in a count. -/
theorem streaming_task_frame (t : BatchTask) (s : BatchState) :
    (check_and_update t s).1 = s
    ∧ (∀ info, t.abortedSeen = false → t.outcome = .quote info →
        (check_and_update t s).2 = [Event.entry info])
    ∧ (t.abortedSeen = false → t.outcome = .notOrderable →
        (check_and_update t s).2 = [])
    ∧ (t.abortedSeen = false → t.outcome = .exn →
        (check_and_update t s).2 = [Event.diag]) := by
  refine ⟨?_, ?_, ?_, ?_⟩
  · cases h : t.abortedSeen <;> cases ho : t.outcome <;>
      simp [check_and_update, h, ho]
  · intro info h ho
    simp [check_and_update, h, ho]
  · intro h ho
    simp [check_and_update, h, ho]
  · intro h ho
    simp [check_and_update, h, ho]

/-- Witness for C10: a task whose lookup throws leaves the state as it
found it. -/
theorem streaming_task_frame_witness :
    (check_and_update ⟨"a.com", false, LookupOutcome.exn⟩ ⟨[], 0⟩).1 = ⟨[], 0⟩ :=
  (streaming_task_frame ⟨"a.com", false, LookupOutcome.exn⟩ ⟨[], 0⟩).1

/-- Counterexample for C3: a failing session refresh does not abort the
batch and is not reported once upstream.  With two tasks whose session
refresh fails, both tasks still run (each emits its progress line) and the
failure is absorbed per-domain: `failed_domains` ends at 2. -/
theorem session_failure_not_a_batch_abort_cex :
    (runTasksSorted
      [⟨"a.com", false, lookupOutcome false "a.com" []⟩,
       ⟨"b.com", false, lookupOutcome false "b.com" []⟩] ⟨[], 0⟩)
      = (⟨[], 2⟩,
         [Event.progress 0 0 "a.com", Event.progress 0 1 "b.com"]) := by decide

/-- Amended C3: in `dq.py` a session-refresh failure during a task is
absorbed as an ordinary per-domain failure: the lookup returns `None` and
the task increments `failed_domains` by one without touching
`domain_info`; the batch is not aborted and other tasks keep running. -/
theorem session_failure_absorbed_per_domain (refreshOk : Bool) (d : String)
    (offers : List Offer) (t : BatchTask) (s : BatchState)
    (h1 : refreshOk = false) (h2 : t.abortedSeen = false)
    (h3 : t.outcome = lookupOutcome refreshOk d offers) :
    check_domain_status_full refreshOk d offers = none
    ∧ (check_and_update_sorted t s).1.failed_domains = s.failed_domains + 1
    ∧ (check_and_update_sorted t s).1.domain_info = s.domain_info := by
  subst h1
  have hout : lookupOutcome false d offers = .notOrderable := by
    simp [lookupOutcome, check_domain_status_full]
  rw [hout] at h3
  exact ⟨by simp [check_domain_status_full],
    by simp [check_and_update_sorted, h2, h3],
    by simp [check_and_update_sorted, h2, h3]⟩

/-- Witness for the amended C3. -/
theorem session_failure_absorbed_per_domain_witness :
    check_domain_status_full false "a.com" [] = none
    ∧ (check_and_update_sorted ⟨"a.com", false, lookupOutcome false "a.com" []⟩
        ⟨[], 0⟩).1.failed_domains = 0 + 1
    ∧ (check_and_update_sorted ⟨"a.com", false, lookupOutcome false "a.com" []⟩
        ⟨[], 0⟩).1.domain_info = [] :=
  session_failure_absorbed_per_domain false "a.com" []
    ⟨"a.com", false, lookupOutcome false "a.com" []⟩ ⟨[], 0⟩ rfl rfl rfl
